import Mathlib

/-
Verification of the dmass_bypass_status pipeline (src/dmass_bypass_status/main.py).

Shallow embedding conventions:
  * timestamps (datetime values) are modelled as integers;
  * a JSON-encoded text field is modelled by `JsonText`: either malformed raw
    text or the parsed `Json` value, so `json.loads` becomes `jsonLoads`;
  * Python exceptions (KeyError, IndexError, AttributeError, TypeError,
    JSONDecodeError) are modelled with `Except String`; the program has no
    try/except around the modelled code, so an error aborts the surrounding
    computation, exactly as an uncaught exception aborts the script;
  * the AWS clients are modelled as function parameters:
    `describe : String → DescribeResponse` for describe_execution,
    `getHistory : String → List HistoryEvent` for get_execution_history, and
    `getObject : String → String → Except String JsonText` for S3 get_object
    combined with Body.read().decode() (an error models NoSuchKey / bad bytes);
  * Python dicts that the code mutates keyed by strings (the relation map) are
    modelled as insertion-ordered association lists with dict-style update.
-/

set_option maxHeartbeats 1000000

namespace DmasBypassStatus

/-- JSON values, as produced by a successful json.loads. -/
inductive Json where
  | null
  | bool (b : Bool)
  | num (n : Int)
  | str (s : String)
  | arr (elems : List Json)
  | obj (fields : List (String × Json))
deriving Repr

/-- A JSON-encoded text field as the program receives it: json.loads either
raises JSONDecodeError or returns the parsed value. -/
inductive JsonText where
  | malformed (raw : String)
  | wellFormed (value : Json)
deriving Repr

/-- Model of json.loads. -/
def jsonLoads : JsonText → Except String Json
  | .malformed _ => .error "json.decoder.JSONDecodeError"
  | .wellFormed v => .ok v

/-- Python `d[k]` on a parsed JSON value: KeyError when the key is absent,
TypeError-style failure when the value is not an object. -/
def Json.getKey : Json → String → Except String Json
  | .obj fields, k =>
    match fields.find? (fun p => p.1 == k) with
    | some p => .ok p.2
    | none => .error ("KeyError: " ++ k)
  | _, k => .error ("TypeError: subscript " ++ k)

/-- Python `k in d.keys()`: AttributeError when the value is not a dict. -/
def Json.hasKey : Json → String → Except String Bool
  | .obj fields, k => .ok (fields.any (fun p => p.1 == k))
  | _, _ => .error "AttributeError: keys"

/-- Python coercion used where the code needs a str (string concatenation,
str.replace, boto parameters): anything else raises. -/
def Json.asStr : Json → Except String String
  | .str s => .ok s
  | _ => .error "TypeError: expected str"

/-- Python `len(x)` on a parsed JSON value. -/
def Json.pyLen : Json → Except String Nat
  | .arr elems => .ok elems.length
  | .obj fields => .ok fields.length
  | .str s => .ok s.length
  | _ => .error "TypeError: object has no len"

/-- One entry of a list_executions response (also the identity-carrying part of
a describe_execution response): name, status, startDate, stopDate,
executionArn. -/
structure StepExecution where
  name : String
  status : String
  startDate : Int
  stopDate : Int
  executionArn : String
deriving Repr

/-- A describe_execution response: the execution identity plus the JSON-encoded
input and output payloads. -/
structure DescribeResponse extends StepExecution where
  input : JsonText
  output : JsonText
deriving Repr

/-- The StepFunction record of main.py. Class-level defaults become field
defaults; `execution_metadata` uses `Option` for the `== ''` unset sentinel.
`collection` and `granule_id` hold arbitrary JSON values, as the Python
assignments do; their class-level default is the string constant N/A. -/
structure StepFunction where
  name : String
  status : String
  start_date_time : Int
  stop_date_time : Int
  execution_arn : String
  child_execution_arn : List String := []
  parent_execution_arn : String := "N/A"
  execution_metadata : Option DescribeResponse := none
  collection : Json := .str "N/A"
  provider : String := "N/A"
  granule_id : Json := .str "N/A"
deriving Repr

/-- StepFunction.__init__: stop_date_time is the start date unless the status
is SUCCEEDED, in which case it is the stop date of the listing entry. -/
def StepFunction.init (step_execution : StepExecution) : StepFunction :=
  { name := step_execution.name
    status := step_execution.status
    start_date_time := step_execution.startDate
    stop_date_time :=
      if step_execution.status ≠ "SUCCEEDED" then step_execution.startDate
      else step_execution.stopDate
    execution_arn := step_execution.executionArn }

/-- StepFunction.get_duration: stop − start. -/
def StepFunction.get_duration (s : StepFunction) : Int :=
  s.stop_date_time - s.start_date_time

/-- StepFunction.get_children. -/
def StepFunction.get_children (s : StepFunction) : List String :=
  s.child_execution_arn

/-- The fixed-shape info() snapshot. append_metadata later adds
queued_granules_count and possibly fail, so both are optional fields here,
absent (`none`) when info() builds the snapshot. -/
structure Info where
  status : String
  start : Int
  duration : Int
  parent : String
  collection : Json
  provider : String
  granuleId : Json
  queued_granules_count : Option Json := none
  fail : Option String := none
deriving Repr

/-- StepFunction.info(). -/
def StepFunction.info (s : StepFunction) : Info :=
  { status := s.status
    start := s.start_date_time
    duration := s.get_duration
    parent := s.parent_execution_arn
    collection := s.collection
    provider := s.provider
    granuleId := s.granule_id }

/-- StepFunction.set_execution_metadata. -/
def StepFunction.set_execution_metadata
    (s : StepFunction) (execution_metadata : DescribeResponse) : StepFunction :=
  { s with execution_metadata := some execution_metadata }

/-- Python str.replace over character lists: replace every non-overlapping
occurrence of `old`, left to right. The fuel argument is the input length;
each step consumes at least one character, so the fuel never runs out. The
program only calls this with the nonempty pattern stateMachine. -/
def replaceChars (old new : List Char) : Nat → List Char → List Char
  | _, [] => []
  | 0, l => l
  | fuel + 1, c :: rest =>
    if old ≠ [] ∧ old.isPrefixOf (c :: rest) then
      new ++ replaceChars old new fuel ((c :: rest).drop old.length)
    else
      c :: replaceChars old new fuel rest

/-- Python s.replace(old, new). -/
def pyReplace (s old new : String) : String :=
  ⟨replaceChars old.data new.data s.data.length s.data⟩

/-- Python s.startswith over a one-character pattern, on the underlying
character list: true exactly when the first character is a slash. -/
def pyStartsWithSlash (s : String) : Bool :=
  match s.data with
  | [] => false
  | c :: _ => c == Char.ofNat 47

/-- Python s[1:] on the underlying character list. -/
def pyTail (s : String) : String :=
  ⟨s.data.drop 1⟩

/-- The parsing part of set_parent: json.loads(input)[payload][meta], read
source (must be a str for .replace) and execution_name (must be a str for +),
and compose source.replace(stateMachine, execution) + colon + name. -/
def parse_parent (md : DescribeResponse) : Except String String := do
  let json_dict ← (← jsonLoads md.input).getKey "payload" >>= (fun j => j.getKey "meta")
  let source ← json_dict.getKey "source" >>= Json.asStr
  let arn := pyReplace source "stateMachine" "execution"
  let execution_name ← json_dict.getKey "execution_name" >>= Json.asStr
  .ok (arn ++ ":" ++ execution_name)

/-- StepFunction.set_parent: no-op when execution_metadata is unset; otherwise
parses the input payload and stores the composed parent reference. An
uncaught parse error aborts (Python would raise). -/
def StepFunction.set_parent (s : StepFunction) : Except String StepFunction :=
  match s.execution_metadata with
  | none => .ok s
  | some md =>
    match parse_parent md with
    | .error e => .error e
    | .ok p => .ok { s with parent_execution_arn := p }

/-- The parsing part of set_granule_id: json.loads(output)[meta][cnmResponse]
then the identifier field (any JSON value, as in Python). -/
def parse_granule (md : DescribeResponse) : Except String Json := do
  let output ← (← jsonLoads md.output).getKey "meta" >>= (fun j => j.getKey "cnmResponse")
  output.getKey "identifier"

/-- StepFunction.set_granule_id: no-op when execution_metadata is unset or when
the metadata payload's status field is not SUCCEEDED (note: the guard reads
execution_metadata[status], not the record's own status field). -/
def StepFunction.set_granule_id (s : StepFunction) : Except String StepFunction :=
  match s.execution_metadata with
  | none => .ok s
  | some md =>
    if md.status != "SUCCEEDED" then .ok s
    else
      match parse_granule md with
      | .error e => .error e
      | .ok g => .ok { s with granule_id := g }

/-- The parsing part of set_extra_metadata: collection name (any JSON value),
protocol, host and provider_path (strings), and the composed provider URI
`protocol + :// + host + / + path`, with `path[1:]` taken when the stored
path starts with a slash. -/
def parse_extra (md : DescribeResponse) : Except String (Json × String) := do
  let lambda_input_dict ← jsonLoads md.input
  let meta ← lambda_input_dict.getKey "meta"
  let collection ← meta.getKey "collection" >>= (fun j => j.getKey "name")
  let protocol ← (meta.getKey "provider" >>= (fun j => j.getKey "protocol")) >>= Json.asStr
  let host ← (meta.getKey "provider" >>= (fun j => j.getKey "host")) >>= Json.asStr
  let provider_path ←
    (meta.getKey "collection" >>= (fun j => j.getKey "meta")
      >>= (fun j => j.getKey "provider_path")) >>= Json.asStr
  .ok (collection,
    protocol ++ "://" ++ host ++ "/" ++
      (if pyStartsWithSlash provider_path then pyTail provider_path else provider_path))

/-- StepFunction.set_extra_metadata: no-op when execution_metadata is unset;
otherwise stores the collection value and the composed provider URI. (Python
assigns collection before parsing the provider fields; on a provider parse
error the uncaught exception aborts the script, so the intermediate state is
unobservable and the two assignments are modelled as one update.) -/
def StepFunction.set_extra_metadata (s : StepFunction) : Except String StepFunction :=
  match s.execution_metadata with
  | none => .ok s
  | some md =>
    match parse_extra md with
    | .error e => .error e
    | .ok cp => .ok { s with collection := cp.1, provider := cp.2 }

/-- One root of the relation map: the child list (each child a singleton dict
{child arn: info}, modelled as the pair) and the root's own info. -/
structure RootEntry where
  child : List (String × Info)
  info : Info
deriving Repr

/-- The relation map of build_relation_tree: a Python dict keyed by execution
reference, modelled as an insertion-ordered association list. -/
abbrev RelationMap := List (String × RootEntry)

/-- Python dict assignment `m[k] = v`: replace the value at the first (unique)
occurrence of the key, or append a new entry at the end. -/
def dictSet : RelationMap → String → RootEntry → RelationMap
  | [], k, v => [(k, v)]
  | e :: rest, k, v => if e.1 == k then (k, v) :: rest else e :: dictSet rest k v

/-- Python `k in m` on the relation map. -/
def dictMem (m : RelationMap) (k : String) : Bool :=
  m.any (fun e => e.1 == k)

/-- In-place mutation of the entry stored under an existing key
(`m[k]['child'].append(...)` style): rewrite the first occurrence. -/
def dictModify : RelationMap → String → (RootEntry → RootEntry) → RelationMap
  | [], _, _ => []
  | e :: rest, k, f => if e.1 == k then (e.1, f e.2) :: rest else e :: dictModify rest k f

/-- The body of the ingest loop of build_relation_tree for one ingestion record
b: describe the parent reference, attach that response to b, run
set_extra_metadata on b, then either append b under the existing parent root
or manufacture a synthetic parent root from the describe response. -/
def processIngest (describe : String → DescribeResponse)
    (relation_map : RelationMap) (b : StepFunction) : Except String RelationMap := do
  let execution_input := describe b.parent_execution_arn
  let b := b.set_execution_metadata execution_input
  let b ← b.set_extra_metadata
  if dictMem relation_map b.parent_execution_arn then
    .ok (dictModify relation_map b.parent_execution_arn
      (fun e => { e with child := e.child ++ [(b.execution_arn, b.info)] }))
  else
    let temp_step := StepFunction.init execution_input.toStepExecution
    let temp_step := temp_step.set_execution_metadata execution_input
    let temp_step ← temp_step.set_extra_metadata
    .ok (dictSet relation_map b.parent_execution_arn
      { child := [(b.execution_arn, b.info)], info := temp_step.info })

/-- build_relation_tree: seed a root per discovery record (empty child list),
then fold the ingest loop over the ingestion records in input order. -/
def build_relation_tree (describe : String → DescribeResponse)
    (discover_list ingest_list : List StepFunction) : Except String RelationMap :=
  let relation_map := discover_list.foldl
    (fun m a => dictSet m a.execution_arn { child := [], info := a.info }) []
  ingest_list.foldlM (processIngest describe) relation_map

/-- One event of a get_execution_history response, with the two detail fields
the program reads; `none` models an absent details dict (KeyError on access). -/
structure HistoryEvent where
  type : String
  lambdaSucceededOutput : Option JsonText := none
  lambdaFailedCause : Option String := none
deriving Repr

/-- Python list indexing `l[n]`: IndexError when out of range. -/
def listIndex (l : List α) (n : Nat) : Except String α :=
  match l.get? n with
  | some x => .ok x
  | none => .error "IndexError: list index out of range"

/-- Access to an event's type-specific details dict: KeyError when absent. -/
def getDetail (detail : Option α) (msg : String) : Except String α :=
  match detail with
  | some x => .ok x
  | none => .error msg

/-- The success branch of append_metadata for one root: parse the succeeded
event's output; a payload key gives the nested queued_granules_count value; a
replace key triggers the object-store fallback and yields the length of
payload.granules; neither key yields the literal REPLACE NOT FOUND. -/
def resolveCount (getObject : String → String → Except String JsonText)
    (event : HistoryEvent) : Except String Json := do
  let outputText ← getDetail event.lambdaSucceededOutput
    "KeyError: lambdaFunctionSucceededEventDetails"
  let output ← jsonLoads outputText
  if (← output.hasKey "payload") then
    output.getKey "meta" >>= (fun j => j.getKey "collection")
      >>= (fun j => j.getKey "meta") >>= (fun j => j.getKey "discover_tf")
      >>= (fun j => j.getKey "queued_granules_count")
  else if (← output.hasKey "replace") then do
    let bucket ← output.getKey "replace" >>= (fun j => j.getKey "Bucket") >>= Json.asStr
    let key ← output.getKey "replace" >>= (fun j => j.getKey "Key") >>= Json.asStr
    let objectText ← getObject bucket key
    let s3_download ← jsonLoads objectText
    let n ← (s3_download.getKey "payload" >>= (fun j => j.getKey "granules")) >>= Json.pyLen
    .ok (.num n)
  else
    .ok (.str "REPLACE NOT FOUND")

/-- The body of the append_metadata loop for one root d: fetch the execution
history, short-circuit RUNNING roots with count N/A, otherwise inspect the
event at 0-indexed position 4: a LambdaFunctionSucceeded event resolves the
count via `resolveCount`, any other event type has its failure cause recorded
under fail with count N/A. -/
def appendOne (getHistory : String → List HistoryEvent)
    (getObject : String → String → Except String JsonText)
    (d : String) (entry : RootEntry) : Except String RootEntry :=
  let response := getHistory d
  if entry.info.status == "RUNNING" then
    .ok { entry with info := { entry.info with queued_granules_count := some (.str "N/A") } }
  else do
    let event ← listIndex response 4
    if event.type == "LambdaFunctionSucceeded" then
      match resolveCount getObject event with
      | .error e => .error e
      | .ok granule_count =>
        .ok { entry with info :=
          { entry.info with queued_granules_count := some granule_count } }
    else
      match getDetail event.lambdaFailedCause "KeyError: lambdaFunctionFailedEventDetails" with
      | .error e => .error e
      | .ok cause =>
        .ok { entry with info :=
          { entry.info with fail := some cause, queued_granules_count := some (.str "N/A") } }

/-- append_metadata: apply `appendOne` to every root in map order; an uncaught
per-root error aborts the whole pass (Python has no try/except here). -/
def append_metadata (getHistory : String → List HistoryEvent)
    (getObject : String → String → Except String JsonText)
    (source : RelationMap) : Except String RelationMap :=
  source.mapM (fun e => (appendOne getHistory getObject e.1 e.2).map (fun v => (e.1, v)))

/-- The enrichment operations a StepFunction record can undergo after
construction, in the order-free shape needed to quantify over any sequence. -/
inductive EnrichOp where
  | setExecutionMetadata (md : DescribeResponse)
  | setParent
  | setGranuleId
  | setExtraMetadata
deriving Repr

/-- Apply one enrichment operation to a record. -/
def applyOp (s : StepFunction) : EnrichOp → Except String StepFunction
  | .setExecutionMetadata md => .ok (s.set_execution_metadata md)
  | .setParent => s.set_parent
  | .setGranuleId => s.set_granule_id
  | .setExtraMetadata => s.set_extra_metadata

/-- Key list of a relation map. -/
def keysOf (m : RelationMap) : List String :=
  m.map (fun e => e.1)

/-- How many roots of the map carry the key k. -/
def countKey (m : RelationMap) (k : String) : Nat :=
  (keysOf m).count k

/-- The child list stored under a key (empty when the key is absent). -/
def childrenOf (m : RelationMap) (k : String) : List (String × Info) :=
  match m.find? (fun e => e.1 == k) with
  | some e => e.2.child
  | none => []

/-! Concrete inputs used to exercise the definitions at explicit data. -/

/-- A fresh info snapshot with the given status and all defaults. -/
def mkInfo (status : String) : Info :=
  { status := status, start := 0, duration := 0, parent := "N/A",
    collection := .str "N/A", provider := "N/A", granuleId := .str "N/A" }

/-- The input-payload shape consumed by set_extra_metadata: collection name,
provider protocol and host, and the stored provider_path. -/
def providerInput (protocol host provider_path collection_name : String) : Json :=
  .obj [("meta", .obj [
    ("collection", .obj [("name", .str collection_name),
      ("meta", .obj [("provider_path", .str provider_path)])]),
    ("provider", .obj [("protocol", .str protocol), ("host", .str host)])])]

/-- Object-store stub that always fails the fetch. -/
def noObject : String → String → Except String JsonText :=
  fun _ _ => .error "NoSuchKey"

/-- History stub returning an empty event list for every execution. -/
def noHistory : String → List HistoryEvent :=
  fun _ => []

/-- History stub returning five copies of one event, so position 4 exists. -/
def historyOf (e : HistoryEvent) : String → List HistoryEvent :=
  fun _ => [e, e, e, e, e]

/-- A non-RUNNING root entry with no children and default info. -/
def c1entry : RootEntry :=
  { child := [], info := mkInfo "SUCCEEDED" }

/-- Succeeded-lambda output carrying a payload key and the nested count 7. -/
def c1outPayload : Json :=
  .obj [("payload", .null),
    ("meta", .obj [("collection", .obj [("meta", .obj [("discover_tf",
      .obj [("queued_granules_count", .num 7)])])])])]

def c1evPayload : HistoryEvent :=
  { type := "LambdaFunctionSucceeded",
    lambdaSucceededOutput := some (.wellFormed c1outPayload) }

/-- Succeeded-lambda output carrying only a replace bucket/key reference. -/
def c1outReplace : Json :=
  .obj [("replace", .obj [("Bucket", .str "b"), ("Key", .str "k")])]

def c1evReplace : HistoryEvent :=
  { type := "LambdaFunctionSucceeded",
    lambdaSucceededOutput := some (.wellFormed c1outReplace) }

/-- The object fetched from the store: payload.granules has three elements. -/
def c1fetched : Json :=
  .obj [("payload", .obj [("granules", .arr [.num 1, .num 2, .num 3])])]

def c1getObject : String → String → Except String JsonText :=
  fun _ _ => .ok (.wellFormed c1fetched)

/-- Succeeded-lambda output with neither a payload nor a replace key. -/
def c1outNeither : Json :=
  .obj [("other", .null)]

def c1evNeither : HistoryEvent :=
  { type := "LambdaFunctionSucceeded",
    lambdaSucceededOutput := some (.wellFormed c1outNeither) }

/-- A failed-lambda event with a recorded cause. -/
def c1evFailed : HistoryEvent :=
  { type := "LambdaFunctionFailed", lambdaFailedCause := some "boom" }

/-- A forest with two non-RUNNING roots, used against an empty history. -/
def c3map : RelationMap :=
  [("arn-r1", c1entry), ("arn-r2", c1entry)]

/-- describe_execution stub for the relation-tree runs. -/
def c2describeResp : DescribeResponse :=
  { name := "disc-run", status := "SUCCEEDED", startDate := 0, stopDate := 3,
    executionArn := "arn-p",
    input := .wellFormed (providerInput "https" "example.com" "/data" "coll"),
    output := .wellFormed .null }

def c2describe : String → DescribeResponse :=
  fun _ => c2describeResp

def c2ingest1 : StepFunction :=
  { name := "i1", status := "SUCCEEDED", start_date_time := 0, stop_date_time := 2,
    execution_arn := "arn-i1", parent_execution_arn := "arn-p" }

def c2ingest2 : StepFunction :=
  { name := "i2", status := "SUCCEEDED", start_date_time := 0, stop_date_time := 2,
    execution_arn := "arn-i2", parent_execution_arn := "arn-p" }

def c2il : List StepFunction :=
  [c2ingest1, c2ingest2]

/-- The forest built from no discovery records and two ingestion records that
share the unlisted parent arn-p. -/
def c2map : RelationMap :=
  ((build_relation_tree c2describe [] c2il).toOption).getD []

def c9disc : StepFunction :=
  { name := "d1", status := "RUNNING", start_date_time := 0, stop_date_time := 0,
    execution_arn := "arn-d1" }

/-- The forest built from one discovery record and no ingestion records. -/
def c9map : RelationMap :=
  ((build_relation_tree c2describe [c9disc] []).toOption).getD []

/-- Adversarial describe payload whose source and execution_name compose to the
record's own execution reference a:b. -/
def c4meta : DescribeResponse :=
  { name := "b", status := "SUCCEEDED", startDate := 0, stopDate := 1,
    executionArn := "a:b",
    input := .wellFormed (.obj [("payload", .obj [("meta",
      .obj [("source", .str "a"), ("execution_name", .str "b")])])]),
    output := .wellFormed .null }

def c4rec : StepFunction :=
  (StepFunction.init c4meta.toStepExecution).set_execution_metadata c4meta

/-- Realistic describe payload: the source names a state machine, and the
composed parent differs from the record's own reference. -/
def c4meta2 : DescribeResponse :=
  { name := "i9", status := "SUCCEEDED", startDate := 0, stopDate := 1,
    executionArn := "arn-i9",
    input := .wellFormed (.obj [("payload", .obj [("meta",
      .obj [("source", .str "arn:states:stateMachineDisc"),
            ("execution_name", .str "e1")])])]),
    output := .wellFormed .null }

def c4rec2 : StepFunction :=
  (StepFunction.init c4meta2.toStepExecution).set_execution_metadata c4meta2

/-- Describe payload whose status field says SUCCEEDED and whose output parses
to a granule identifier. -/
def c5meta : DescribeResponse :=
  { name := "r", status := "SUCCEEDED", startDate := 0, stopDate := 1,
    executionArn := "arn-i5",
    input := .wellFormed .null,
    output := .wellFormed (.obj [("meta", .obj [("cnmResponse",
      .obj [("identifier", .str "g1")])])]) }

/-- A record whose own status is FAILED but whose attached metadata says
SUCCEEDED. -/
def c5rec : StepFunction :=
  { name := "r", status := "FAILED", start_date_time := 0, stop_date_time := 0,
    execution_arn := "arn-i5", execution_metadata := some c5meta }

def c5meta3 : DescribeResponse :=
  { c5meta with status := "RUNNING" }

def c5rec3 : StepFunction :=
  { c5rec with status := "RUNNING", execution_metadata := some c5meta3 }

/-- A RUNNING root entry. -/
def c6entry : RootEntry :=
  { child := [], info := mkInfo "RUNNING" }

def c7exec : StepExecution :=
  { name := "e", status := "RUNNING", startDate := 5, stopDate := 9,
    executionArn := "arn-e" }

def c8meta1 : DescribeResponse :=
  { name := "m", status := "SUCCEEDED", startDate := 0, stopDate := 0,
    executionArn := "arn-m",
    input := .wellFormed (providerInput "https" "example.com" "/data" "coll"),
    output := .wellFormed .null }

def c8meta2 : DescribeResponse :=
  { c8meta1 with input := .wellFormed (providerInput "https" "example.com" "data" "coll") }

def c8rec1 : StepFunction :=
  { name := "m", status := "SUCCEEDED", start_date_time := 0, stop_date_time := 0,
    execution_arn := "arn-m", execution_metadata := some c8meta1 }

def c8rec2 : StepFunction :=
  { c8rec1 with execution_metadata := some c8meta2 }

def c10exec : StepExecution :=
  { name := "x", status := "SUCCEEDED", startDate := 0, stopDate := 4,
    executionArn := "arn-x" }

/-- Describe payload rich enough that every enrichment operation succeeds. -/
def c10md : DescribeResponse :=
  { name := "x", status := "SUCCEEDED", startDate := 0, stopDate := 4,
    executionArn := "arn-x",
    input := .wellFormed (.obj [
      ("payload", .obj [("meta", .obj [("source", .str "sm:stateMachineA"),
        ("execution_name", .str "e2")])]),
      ("meta", .obj [
        ("collection", .obj [("name", .str "coll"),
          ("meta", .obj [("provider_path", .str "d")])]),
        ("provider", .obj [("protocol", .str "s3"), ("host", .str "h")])])]),
    output := .wellFormed (.obj [("meta", .obj [("cnmResponse",
      .obj [("identifier", .str "gX")])])]) }

def c10ops : List EnrichOp :=
  [.setExecutionMetadata c10md, .setParent, .setGranuleId, .setExtraMetadata]

/-- The record after the full enrichment sequence. -/
def c10rec : StepFunction :=
  ((c10ops.foldlM applyOp (StepFunction.init c10exec)).toOption).getD
    (StepFunction.init c10exec)

/-! Helper lemmas. -/

@[simp] theorem ok_bind {α β : Type} (a : α) (f : α → Except String β) :
    (Except.ok a >>= f) = f a := rfl

@[simp] theorem error_bind {α β : Type} (e : String) (f : α → Except String β) :
    ((Except.error e : Except String α) >>= f) = .error e := rfl

@[simp] theorem map_ok {α β : Type} (f : α → β) (a : α) :
    (Except.ok a : Except String α).map f = .ok (f a) := rfl

@[simp] theorem map_error {α β : Type} (f : α → β) (e : String) :
    (Except.error e : Except String α).map f = .error e := rfl

@[simp] theorem pure_eq_ok {α : Type} (a : α) :
    (pure a : Except String α) = .ok a := rfl

/-- set_extra_metadata only ever touches collection and provider. -/
theorem set_extra_metadata_fields {s s' : StepFunction}
    (h : s.set_extra_metadata = .ok s') :
    s'.name = s.name ∧ s'.status = s.status ∧ s'.start_date_time = s.start_date_time ∧
    s'.stop_date_time = s.stop_date_time ∧ s'.execution_arn = s.execution_arn ∧
    s'.child_execution_arn = s.child_execution_arn ∧
    s'.parent_execution_arn = s.parent_execution_arn ∧
    s'.granule_id = s.granule_id := by
  unfold StepFunction.set_extra_metadata at h
  split at h
  · injection h with h
    subst h
    exact ⟨rfl, rfl, rfl, rfl, rfl, rfl, rfl, rfl⟩
  · split at h
    · exact absurd h (by simp)
    · injection h with h
      subst h
      exact ⟨rfl, rfl, rfl, rfl, rfl, rfl, rfl, rfl⟩

/-- set_parent only ever touches parent_execution_arn. -/
theorem set_parent_fields {s s' : StepFunction}
    (h : s.set_parent = .ok s') :
    s'.execution_arn = s.execution_arn ∧
    s'.child_execution_arn = s.child_execution_arn ∧
    s'.granule_id = s.granule_id := by
  unfold StepFunction.set_parent at h
  split at h
  · injection h with h
    subst h
    exact ⟨rfl, rfl, rfl⟩
  · split at h
    · exact absurd h (by simp)
    · injection h with h
      subst h
      exact ⟨rfl, rfl, rfl⟩

/-- set_granule_id only ever touches granule_id. -/
theorem set_granule_id_fields {s s' : StepFunction}
    (h : s.set_granule_id = .ok s') :
    s'.execution_arn = s.execution_arn ∧
    s'.child_execution_arn = s.child_execution_arn ∧
    s'.parent_execution_arn = s.parent_execution_arn := by
  unfold StepFunction.set_granule_id at h
  split at h
  · injection h with h
    subst h
    exact ⟨rfl, rfl, rfl⟩
  · split at h
    · injection h with h
      subst h
      exact ⟨rfl, rfl, rfl⟩
    · split at h
      · exact absurd h (by simp)
      · injection h with h
        subst h
        exact ⟨rfl, rfl, rfl⟩

/-- No enrichment operation touches child_execution_arn. -/
theorem applyOp_child {s s' : StepFunction} {op : EnrichOp}
    (h : applyOp s op = .ok s') :
    s'.child_execution_arn = s.child_execution_arn := by
  cases op with
  | setExecutionMetadata md =>
    injection h with h
    subst h
    rfl
  | setParent => exact (set_parent_fields h).2.1
  | setGranuleId => exact (set_granule_id_fields h).2.1
  | setExtraMetadata => exact (set_extra_metadata_fields h).2.2.2.2.2.1

/-! Claim C7. -/

/-- C7: for every execution record constructed from a listing entry whose stop
timestamp is at or after its start timestamp, the duration is nonnegative; and
whenever the status is RUNNING the duration is zero, because the constructor
defines the stop timestamp as the start timestamp for every non-SUCCEEDED
status. -/
theorem C7_duration_nonneg (e : StepExecution) (h : e.startDate ≤ e.stopDate) :
    0 ≤ (StepFunction.init e).get_duration ∧
      (e.status = "RUNNING" → (StepFunction.init e).get_duration = 0) := by
  constructor
  · by_cases hs : e.status = "SUCCEEDED"
    · simp [StepFunction.init, StepFunction.get_duration, hs]
      omega
    · simp [StepFunction.init, StepFunction.get_duration, hs]
  · intro hr
    have hs : e.status ≠ "SUCCEEDED" := by
      rw [hr]
      decide
    simp [StepFunction.init, StepFunction.get_duration, hs]

/-- Witness for C7 at a concrete RUNNING listing entry. -/
theorem C7_witness :
    c7exec.startDate ≤ c7exec.stopDate ∧
      (0 ≤ (StepFunction.init c7exec).get_duration ∧
        (c7exec.status = "RUNNING" → (StepFunction.init c7exec).get_duration = 0)) :=
  ⟨by decide, C7_duration_nonneg c7exec (by decide)⟩

/-! Claim C6. -/

/-- C6: for every root whose info status is RUNNING, append_metadata's per-root
body resolves to exactly the same entry with queued_granules_count set to the
N/A (unknown) marker, for every history function and every object store: the
result is independent of the execution history, no event is examined, and the
fail field is untouched (the update keeps it as it was). -/
theorem C6_running_root_skips_history
    (getHistory : String → List HistoryEvent)
    (getObject : String → String → Except String JsonText)
    (d : String) (entry : RootEntry) (h : entry.info.status = "RUNNING") :
    appendOne getHistory getObject d entry =
      .ok { entry with info :=
        { entry.info with queued_granules_count := some (.str "N/A") } } := by
  unfold appendOne
  simp [h]

/-- Witness for C6 at a concrete RUNNING root, with an empty history and a
failing object store: the entry still gets count N/A and no fail field. -/
theorem C6_witness :
    c6entry.info.status = "RUNNING" ∧
      appendOne noHistory noObject "arn-r" c6entry =
        .ok { c6entry with info :=
          { c6entry.info with queued_granules_count := some (.str "N/A") } } :=
  ⟨rfl, C6_running_root_skips_history noHistory noObject "arn-r" c6entry rfl⟩

/-! Claim C5. -/

/-- C5 counterexample: a record whose own status is FAILED (not SUCCEEDED) but
whose attached description payload reports status SUCCEEDED: set_granule_id
parses the output and overwrites the granule identifier with g1, so it does
not remain at the N/A (unknown) default. The guard reads the payload's status
field, not the record's. -/
theorem C5_counterexample :
    c5rec.status ≠ "SUCCEEDED" ∧
      c5rec.set_granule_id = .ok { c5rec with granule_id := .str "g1" } ∧
      ({ c5rec with granule_id := .str "g1" } : StepFunction).granule_id ≠ .str "N/A" := by
  refine ⟨by decide, rfl, ?_⟩
  intro h
  injection h with h
  exact absurd h (by decide)

/-- C5 amended: granule resolution acts only when the supplied description
payload's status is SUCCEEDED: whenever the attached metadata (if any) has a
status other than SUCCEEDED, set_granule_id returns the record unchanged, so
the granule identifier keeps its previous value (the N/A default in
particular). -/
theorem C5_granule_guard (s : StepFunction)
    (h : ∀ md, s.execution_metadata = some md → md.status ≠ "SUCCEEDED") :
    s.set_granule_id = .ok s := by
  unfold StepFunction.set_granule_id
  cases hm : s.execution_metadata with
  | none => rfl
  | some md =>
    have hne := h md hm
    simp [hne]

/-- Witness for C5's amended theorem: a record whose metadata says RUNNING
keeps its N/A granule identifier. -/
theorem C5_witness :
    c5rec3.set_granule_id = .ok c5rec3 ∧ c5rec3.granule_id = .str "N/A" := by
  refine ⟨C5_granule_guard c5rec3 ?_, rfl⟩
  intro md hmd
  have h2 : some c5meta3 = some md := hmd
  injection h2 with h3
  rw [← h3]
  decide

/-! Claim C8. -/

/-- C8: for every protocol, host, provider_path and collection name in the
input payload, set_extra_metadata composes the provider URI as
protocol ++ :// ++ host ++ / ++ path, where at most one leading slash of the
stored path is stripped before joining. -/
theorem C8_provider_uri (s : StepFunction) (md : DescribeResponse)
    (protocol host provider_path collection_name : String)
    (hmd : s.execution_metadata = some md)
    (hin : md.input = .wellFormed (providerInput protocol host provider_path collection_name)) :
    s.set_extra_metadata = .ok { s with
      collection := .str collection_name,
      provider := protocol ++ "://" ++ host ++ "/" ++
        (if pyStartsWithSlash provider_path then pyTail provider_path else provider_path) } := by
  have hp : parse_extra md = .ok (.str collection_name,
      protocol ++ "://" ++ host ++ "/" ++
        (if pyStartsWithSlash provider_path then pyTail provider_path else provider_path)) := by
    unfold parse_extra
    rw [hin]
    rfl
  unfold StepFunction.set_extra_metadata
  rw [hmd]
  dsimp only
  rw [hp]

/-- Witness for C8: protocol https, host example.com, and the two stored paths
/data and data both produce the provider URI https://example.com/data. -/
theorem C8_witness :
    c8rec1.set_extra_metadata = .ok { c8rec1 with
      collection := .str "coll",
      provider := "https://example.com/data" } ∧
    c8rec2.set_extra_metadata = .ok { c8rec2 with
      collection := .str "coll",
      provider := "https://example.com/data" } := by
  have h1 := C8_provider_uri c8rec1 c8meta1 "https" "example.com" "/data" "coll" rfl rfl
  have h2 := C8_provider_uri c8rec2 c8meta2 "https" "example.com" "data" "coll" rfl rfl
  have e1 : ("https" ++ "://" ++ "example.com" ++ "/" ++
      (if pyStartsWithSlash "/data" then pyTail "/data" else "/data")) =
      "https://example.com/data" := by decide
  have e2 : ("https" ++ "://" ++ "example.com" ++ "/" ++
      (if pyStartsWithSlash "data" then pyTail "data" else "data")) =
      "https://example.com/data" := by decide
  rw [e1] at h1
  rw [e2] at h2
  exact ⟨h1, h2⟩

/-! Claim C4. -/

/-- C4 counterexample: nothing in set_parent rules out self-parenting: with a
payload whose source is the string a (no stateMachine token, so replace is the
identity) and whose execution_name is b, a record whose own reference is a:b
ends up with parent_execution_arn equal to its own execution_arn. -/
theorem C4_counterexample :
    c4rec.execution_arn = "a:b" ∧
      c4rec.set_parent = .ok { c4rec with parent_execution_arn := c4rec.execution_arn } :=
  ⟨rfl, rfl⟩

/-- C4 amended: the parent reference is derived exactly once, from the run's
own input payload, as source.replace(stateMachine, execution) + colon +
execution_name; whenever that composed reference differs from the record's own
execution reference (as it does for real payloads, which name the spawning
state machine), the resolved parent is not the record itself. The code itself
does not enforce the inequality. -/
theorem C4_parent_derivation (s : StepFunction) (md : DescribeResponse)
    (top json_dict : Json) (src en : String)
    (hmd : s.execution_metadata = some md)
    (hload : jsonLoads md.input = .ok top)
    (hjd : (top.getKey "payload" >>= (fun j => j.getKey "meta")) = .ok json_dict)
    (hsrc : json_dict.getKey "source" = .ok (.str src))
    (hen : json_dict.getKey "execution_name" = .ok (.str en))
    (hne : pyReplace src "stateMachine" "execution" ++ ":" ++ en ≠ s.execution_arn) :
    s.set_parent = .ok { s with
      parent_execution_arn := pyReplace src "stateMachine" "execution" ++ ":" ++ en } ∧
      (∀ s', s.set_parent = .ok s' → s'.parent_execution_arn ≠ s'.execution_arn) := by
  have hparse : parse_parent md = .ok (pyReplace src "stateMachine" "execution" ++ ":" ++ en) := by
    unfold parse_parent
    rw [hload]
    simp only [ok_bind]
    rw [hjd]
    simp only [ok_bind]
    rw [hsrc, hen]
    simp only [ok_bind, Json.asStr]
  have hset : s.set_parent = .ok { s with
      parent_execution_arn := pyReplace src "stateMachine" "execution" ++ ":" ++ en } := by
    unfold StepFunction.set_parent
    rw [hmd]
    dsimp only
    rw [hparse]
  refine ⟨hset, ?_⟩
  intro s' hs'
  rw [hset] at hs'
  injection hs' with hs'
  subst hs'
  simpa using hne

/-- Witness for C4's amended theorem: a realistic payload (source names a
state machine) yields a parent different from the record's own reference. -/
theorem C4_witness :
    c4rec2.set_parent = .ok { c4rec2 with
      parent_execution_arn :=
        pyReplace "arn:states:stateMachineDisc" "stateMachine" "execution" ++ ":" ++ "e1" } ∧
      pyReplace "arn:states:stateMachineDisc" "stateMachine" "execution" ++ ":" ++ "e1"
        = "arn:states:executionDisc:e1" ∧
      c4rec2.execution_arn = "arn-i9" := by
  have h := C4_parent_derivation c4rec2 c4meta2
    (.obj [("payload", .obj [("meta", .obj [("source", .str "arn:states:stateMachineDisc"),
      ("execution_name", .str "e1")])])])
    (.obj [("source", .str "arn:states:stateMachineDisc"), ("execution_name", .str "e1")])
    "arn:states:stateMachineDisc" "e1" rfl rfl rfl rfl rfl (by decide)
  exact ⟨h.1, by decide, rfl⟩

/-! Claim C1. -/

/-- For a non-RUNNING root whose history has an event at position 4, appendOne
reduces to the two-way case split on the event type. -/
theorem appendOne_event {getHistory : String → List HistoryEvent}
    {getObject : String → String → Except String JsonText}
    {d : String} {entry : RootEntry} {event : HistoryEvent}
    (hrun : entry.info.status ≠ "RUNNING")
    (hev : (getHistory d).get? 4 = some event) :
    appendOne getHistory getObject d entry =
      (if event.type == "LambdaFunctionSucceeded" then
        match resolveCount getObject event with
        | .error e => .error e
        | .ok granule_count =>
          .ok { entry with info :=
            { entry.info with queued_granules_count := some granule_count } }
      else
        match getDetail event.lambdaFailedCause "KeyError: lambdaFunctionFailedEventDetails" with
        | .error e => .error e
        | .ok cause =>
          .ok { entry with info :=
            { entry.info with
              fail := some cause,
              queued_granules_count := some (.str "N/A") } }) := by
  unfold appendOne listIndex
  dsimp only
  rw [hev]
  simp [hrun]

/-- resolveCount on a parsed output that carries a payload key gives the nested
queued_granules_count value. -/
theorem resolveCount_payload {getObject : String → String → Except String JsonText}
    {event : HistoryEvent} {output v : Json}
    (hout : event.lambdaSucceededOutput = some (.wellFormed output))
    (hpk : output.hasKey "payload" = .ok true)
    (hv : (output.getKey "meta" >>= (fun j => j.getKey "collection")
      >>= (fun j => j.getKey "meta") >>= (fun j => j.getKey "discover_tf")
      >>= (fun j => j.getKey "queued_granules_count")) = .ok v) :
    resolveCount getObject event = .ok v := by
  unfold resolveCount getDetail
  rw [hout]
  simp only [ok_bind, jsonLoads]
  rw [hpk]
  simp only [ok_bind, if_true]
  exact hv

/-- resolveCount on a parsed output with no payload key but a replace key
fetches the object and gives the length of payload.granules. -/
theorem resolveCount_replace {getObject : String → String → Except String JsonText}
    {event : HistoryEvent} {output fetched : Json} {bucket key : String}
    {granules : List Json}
    (hout : event.lambdaSucceededOutput = some (.wellFormed output))
    (hpk : output.hasKey "payload" = .ok false)
    (hrk : output.hasKey "replace" = .ok true)
    (hb : (output.getKey "replace" >>= (fun j => j.getKey "Bucket")) = .ok (.str bucket))
    (hk : (output.getKey "replace" >>= (fun j => j.getKey "Key")) = .ok (.str key))
    (hgo : getObject bucket key = .ok (.wellFormed fetched))
    (hgr : (fetched.getKey "payload" >>= (fun j => j.getKey "granules")) = .ok (.arr granules)) :
    resolveCount getObject event = .ok (.num granules.length) := by
  unfold resolveCount getDetail
  rw [hout]
  simp only [ok_bind, jsonLoads]
  rw [hpk]
  simp only [ok_bind, Bool.false_eq_true, if_false]
  rw [hrk]
  simp only [ok_bind, if_true]
  rw [hb]
  simp only [ok_bind, Json.asStr]
  rw [hk]
  simp only [ok_bind, Json.asStr]
  rw [hgo]
  simp only [ok_bind, jsonLoads]
  rw [hgr]
  simp only [ok_bind, Json.pyLen]

/-- resolveCount on a parsed output with neither key gives the literal
REPLACE NOT FOUND marker. -/
theorem resolveCount_neither {getObject : String → String → Except String JsonText}
    {event : HistoryEvent} {output : Json}
    (hout : event.lambdaSucceededOutput = some (.wellFormed output))
    (hpk : output.hasKey "payload" = .ok false)
    (hrk : output.hasKey "replace" = .ok false) :
    resolveCount getObject event = .ok (.str "REPLACE NOT FOUND") := by
  unfold resolveCount getDetail
  rw [hout]
  simp only [ok_bind, jsonLoads]
  rw [hpk]
  simp only [ok_bind, Bool.false_eq_true, if_false]
  rw [hrk]
  simp only [ok_bind, Bool.false_eq_true, if_false]

/-- C1: for every non-RUNNING root with an event at 0-indexed history position
4, append_metadata's per-root body resolves queued_granules_count as the spec
says: (1) a succeeded lambda whose parsed output has a payload key yields the
nested meta.collection.meta.discover_tf.queued_granules_count value; (2) no
payload key but a replace key yields the length of payload.granules of the
object fetched from the store at that Bucket/Key; (3) neither key yields the
literal REPLACE NOT FOUND; (4) a non-success event with a recorded cause
yields a fail annotation carrying the cause and the N/A (unknown) count. -/
theorem C1_backfill_count (getHistory : String → List HistoryEvent)
    (getObject : String → String → Except String JsonText)
    (d : String) (entry : RootEntry) (event : HistoryEvent)
    (hrun : entry.info.status ≠ "RUNNING")
    (hev : (getHistory d).get? 4 = some event) :
    (∀ output v, event.type = "LambdaFunctionSucceeded" →
      event.lambdaSucceededOutput = some (.wellFormed output) →
      output.hasKey "payload" = .ok true →
      (output.getKey "meta" >>= (fun j => j.getKey "collection")
        >>= (fun j => j.getKey "meta") >>= (fun j => j.getKey "discover_tf")
        >>= (fun j => j.getKey "queued_granules_count")) = .ok v →
      appendOne getHistory getObject d entry =
        .ok { entry with info := { entry.info with queued_granules_count := some v } }) ∧
    (∀ output bucket key fetched granules, event.type = "LambdaFunctionSucceeded" →
      event.lambdaSucceededOutput = some (.wellFormed output) →
      output.hasKey "payload" = .ok false →
      output.hasKey "replace" = .ok true →
      (output.getKey "replace" >>= (fun j => j.getKey "Bucket")) = .ok (.str bucket) →
      (output.getKey "replace" >>= (fun j => j.getKey "Key")) = .ok (.str key) →
      getObject bucket key = .ok (.wellFormed fetched) →
      (fetched.getKey "payload" >>= (fun j => j.getKey "granules")) = .ok (.arr granules) →
      appendOne getHistory getObject d entry =
        .ok { entry with info :=
          { entry.info with queued_granules_count := some (.num granules.length) } }) ∧
    (∀ output, event.type = "LambdaFunctionSucceeded" →
      event.lambdaSucceededOutput = some (.wellFormed output) →
      output.hasKey "payload" = .ok false →
      output.hasKey "replace" = .ok false →
      appendOne getHistory getObject d entry =
        .ok { entry with info :=
          { entry.info with queued_granules_count := some (.str "REPLACE NOT FOUND") } }) ∧
    (∀ cause, event.type ≠ "LambdaFunctionSucceeded" →
      event.lambdaFailedCause = some cause →
      appendOne getHistory getObject d entry =
        .ok { entry with info :=
          { entry.info with
            fail := some cause,
            queued_granules_count := some (.str "N/A") } }) := by
  refine ⟨?_, ?_, ?_, ?_⟩
  · intro output v hty hout hpk hv
    rw [appendOne_event hrun hev]
    simp only [hty, beq_self_eq_true, if_true]
    rw [resolveCount_payload hout hpk hv]
  · intro output bucket key fetched granules hty hout hpk hrk hb hk hgo hgr
    rw [appendOne_event hrun hev]
    simp only [hty, beq_self_eq_true, if_true]
    rw [resolveCount_replace hout hpk hrk hb hk hgo hgr]
  · intro output hty hout hpk hrk
    rw [appendOne_event hrun hev]
    simp only [hty, beq_self_eq_true, if_true]
    rw [resolveCount_neither hout hpk hrk]
  · intro cause hty hcause
    rw [appendOne_event hrun hev]
    have hbeq : (event.type == "LambdaFunctionSucceeded") = false := by
      simpa using hty
    rw [hbeq]
    simp only [Bool.false_eq_true, if_false, getDetail]
    rw [hcause]

/-- Witness for C1: all four branches exercised at concrete data: payload
count 7; replace fallback over a three-element granule list; an output with
neither key; and a failed event with cause boom. -/
theorem C1_witness :
    (appendOne (historyOf c1evPayload) noObject "r" c1entry =
      .ok { c1entry with info := { c1entry.info with queued_granules_count := some (.num 7) } }) ∧
    (appendOne (historyOf c1evReplace) c1getObject "r" c1entry =
      .ok { c1entry with info := { c1entry.info with queued_granules_count := some (.num 3) } }) ∧
    (appendOne (historyOf c1evNeither) noObject "r" c1entry =
      .ok { c1entry with info :=
        { c1entry.info with queued_granules_count := some (.str "REPLACE NOT FOUND") } }) ∧
    (appendOne (historyOf c1evFailed) noObject "r" c1entry =
      .ok { c1entry with info :=
        { c1entry.info with
          fail := some "boom",
          queued_granules_count := some (.str "N/A") } }) := by
  refine ⟨?_, ?_, ?_, ?_⟩
  · exact (C1_backfill_count (historyOf c1evPayload) noObject "r" c1entry c1evPayload
      (by decide) rfl).1 c1outPayload (.num 7) rfl rfl rfl rfl
  · exact (C1_backfill_count (historyOf c1evReplace) c1getObject "r" c1entry c1evReplace
      (by decide) rfl).2.1 c1outReplace "b" "k" c1fetched [.num 1, .num 2, .num 3]
      rfl rfl rfl rfl rfl rfl rfl rfl
  · exact (C1_backfill_count (historyOf c1evNeither) noObject "r" c1entry c1evNeither
      (by decide) rfl).2.2.1 c1outNeither rfl rfl rfl rfl
  · exact (C1_backfill_count (historyOf c1evFailed) noObject "r" c1entry c1evFailed
      (by decide) rfl).2.2.2 "boom" (by decide) rfl

/-! Claim C3. -/

/-- C3 counterexample: a forest with two non-RUNNING roots where the first
root's history has fewer than five events: append_metadata does not record a
fail annotation and continue; the whole backfill pass aborts with the
uncaught IndexError, producing no output forest at all. -/
theorem C3_counterexample :
    append_metadata noHistory noObject c3map =
      .error "IndexError: list index out of range" := rfl

/-- C3 amended: a per-root backfill error (out-of-range event index,
unexpected event shape, missing detail fields, unreadable fallback object) is
not recorded as a fail annotation: it aborts the whole backfill pass, and
append_metadata propagates that root's error. (Only a failed-lambda event
with a recorded cause yields a fail annotation with processing continuing,
as proved for C1.) -/
theorem C3_error_aborts_pass (getHistory : String → List HistoryEvent)
    (getObject : String → String → Except String JsonText)
    (k : String) (e : RootEntry) (rest : RelationMap) (msg : String)
    (herr : appendOne getHistory getObject k e = .error msg) :
    append_metadata getHistory getObject ((k, e) :: rest) = .error msg := by
  unfold append_metadata
  rw [List.mapM_cons]
  simp [herr]

/-- Witness for C3's amended theorem: with an empty history, the first root's
IndexError aborts the pass over the two-root forest. -/
theorem C3_witness :
    appendOne noHistory noObject "arn-r1" c1entry =
      .error "IndexError: list index out of range" ∧
    append_metadata noHistory noObject [("arn-r1", c1entry), ("arn-r2", c1entry)] =
      .error "IndexError: list index out of range" :=
  ⟨rfl, C3_error_aborts_pass noHistory noObject "arn-r1" c1entry [("arn-r2", c1entry)]
    "IndexError: list index out of range" rfl⟩

/-! Claim C10. -/

/-- Any successful sequence of enrichment operations leaves the child list of
the record unchanged. -/
theorem enrich_fold_child : ∀ (ops : List EnrichOp) (s0 s1 : StepFunction),
    ops.foldlM applyOp s0 = .ok s1 →
    s1.child_execution_arn = s0.child_execution_arn := by
  intro ops
  induction ops with
  | nil =>
    intro s0 s1 h
    rw [List.foldlM_nil] at h
    have hm : s0 = s1 := by simpa using h
    subst hm
    rfl
  | cons op ops ih =>
    intro s0 s1 h
    rw [List.foldlM_cons] at h
    cases hop : applyOp s0 op with
    | error e =>
      rw [hop] at h
      simp at h
    | ok s2 =>
      rw [hop] at h
      simp only [ok_bind] at h
      rw [ih s2 s1 h, applyOp_child hop]

/-- C10: get_children returns the empty list for every record constructed from
any listing entry, after any successful sequence of enrichment operations: the
constructor leaves the child list at its class-level empty default and no
operation ever appends to it; per-record child links live only inside the
relation map. -/
theorem C10_children_empty (e : StepExecution) (ops : List EnrichOp)
    (s : StepFunction)
    (h : ops.foldlM applyOp (StepFunction.init e) = .ok s) :
    s.get_children = [] := by
  show s.child_execution_arn = []
  rw [enrich_fold_child ops _ s h]
  rfl

/-- Witness for C10: the full enrichment sequence (metadata attach, parent,
granule, extra metadata) applied to a concrete record still has no children. -/
theorem C10_witness : c10rec.get_children = [] :=
  C10_children_empty c10exec c10ops c10rec rfl

/-! Association-list (Python dict) lemmas for the relation map. -/

theorem dictMem_cons (e : String × RootEntry) (m : RelationMap) (k : String) :
    dictMem (e :: m) k = (e.1 == k || dictMem m k) := by
  simp [dictMem]

theorem dictMem_iff (m : RelationMap) (k : String) :
    dictMem m k = true ↔ k ∈ keysOf m := by
  simp [dictMem, keysOf, List.any_eq_true, List.mem_map, beq_iff_eq]

theorem keysOf_cons (e : String × RootEntry) (m : RelationMap) :
    keysOf (e :: m) = e.1 :: keysOf m := rfl

theorem childrenOf_nil (k : String) : childrenOf [] k = [] := rfl

theorem childrenOf_cons_pos (e : String × RootEntry) (m : RelationMap) (k : String)
    (h : (e.1 == k) = true) : childrenOf (e :: m) k = e.2.child := by
  unfold childrenOf
  rw [@List.find?_cons_of_pos _ (fun x => x.1 == k) e m h]

theorem childrenOf_cons_neg (e : String × RootEntry) (m : RelationMap) (k : String)
    (h : (e.1 == k) = false) : childrenOf (e :: m) k = childrenOf m k := by
  unfold childrenOf
  rw [@List.find?_cons_of_neg _ (fun x => x.1 == k) e m (by simp [h])]

theorem childrenOf_not_mem : ∀ (m : RelationMap) (k : String),
    dictMem m k = false → childrenOf m k = [] := by
  intro m k
  induction m with
  | nil => intro; rfl
  | cons e rest ih =>
    intro h
    rw [dictMem_cons] at h
    have h1 : (e.1 == k) = false := by
      cases hb : (e.1 == k) with
      | false => rfl
      | true => rw [hb] at h; simp at h
    have h2 : dictMem rest k = false := by
      cases hb : dictMem rest k with
      | false => rfl
      | true => rw [hb, h1] at h; simp at h
    rw [childrenOf_cons_neg _ _ _ h1]
    exact ih h2

theorem keysOf_dictSet_mem : ∀ (m : RelationMap) (k : String) (v : RootEntry),
    dictMem m k = true → keysOf (dictSet m k v) = keysOf m := by
  intro m k v
  induction m with
  | nil => intro h; simp [dictMem] at h
  | cons e rest ih =>
    intro h
    rw [dictMem_cons] at h
    cases hb : (e.1 == k) with
    | true =>
      have he : e.1 = k := by simpa using hb
      simp [dictSet, hb, keysOf_cons, he]
    | false =>
      have h2 : dictMem rest k = true := by simpa [hb] using h
      simp [dictSet, hb, keysOf_cons, ih h2]

theorem keysOf_dictSet_new : ∀ (m : RelationMap) (k : String) (v : RootEntry),
    dictMem m k = false → keysOf (dictSet m k v) = keysOf m ++ [k] := by
  intro m k v
  induction m with
  | nil => intro _; rfl
  | cons e rest ih =>
    intro h
    rw [dictMem_cons] at h
    have h1 : (e.1 == k) = false := by
      cases hb : (e.1 == k) with
      | false => rfl
      | true => rw [hb] at h; simp at h
    have h2 : dictMem rest k = false := by
      cases hb : dictMem rest k with
      | false => rfl
      | true => rw [hb, h1] at h; simp at h
    simp [dictSet, h1, keysOf_cons, ih h2]

theorem find_dictSet_self : ∀ (m : RelationMap) (k : String) (v : RootEntry),
    (dictSet m k v).find? (fun e => e.1 == k) = some (k, v) := by
  intro m k v
  induction m with
  | nil => simp [dictSet, List.find?]
  | cons e rest ih =>
    cases hb : (e.1 == k) with
    | true =>
      simp only [dictSet, hb, if_true]
      exact @List.find?_cons_of_pos _ (fun x => x.1 == k) (k, v) rest (by simp)
    | false =>
      simp only [dictSet, hb, Bool.false_eq_true, if_false]
      rw [@List.find?_cons_of_neg _ (fun x => x.1 == k) e (dictSet rest k v) (by simp [hb])]
      exact ih

theorem childrenOf_dictSet_self (m : RelationMap) (k : String) (v : RootEntry) :
    childrenOf (dictSet m k v) k = v.child := by
  unfold childrenOf
  rw [find_dictSet_self]

theorem find_dictSet_other : ∀ (m : RelationMap) (k : String) (v : RootEntry)
    (q : String), q ≠ k →
    (dictSet m k v).find? (fun e => e.1 == q) = m.find? (fun e => e.1 == q) := by
  intro m k v q hq
  have hkq : (k == q) = false := by
    simp only [beq_eq_false_iff_ne, ne_eq]
    intro hc
    exact hq hc.symm
  induction m with
  | nil =>
    simp [dictSet, List.find?, hkq]
  | cons e rest ih =>
    cases hb : (e.1 == k) with
    | true =>
      have he : e.1 = k := by simpa using hb
      have heq : (e.1 == q) = false := by
        rw [he]
        exact hkq
      simp only [dictSet, hb, if_true]
      rw [@List.find?_cons_of_neg _ (fun x => x.1 == q) (k, v) rest (by simp [hkq]),
        @List.find?_cons_of_neg _ (fun x => x.1 == q) e rest (by simp [heq])]
    | false =>
      simp only [dictSet, hb, Bool.false_eq_true, if_false]
      cases hbq : (e.1 == q) with
      | true =>
        rw [@List.find?_cons_of_pos _ (fun x => x.1 == q) e (dictSet rest k v) hbq,
          @List.find?_cons_of_pos _ (fun x => x.1 == q) e rest hbq]
      | false =>
        rw [@List.find?_cons_of_neg _ (fun x => x.1 == q) e (dictSet rest k v) (by simp [hbq]),
          @List.find?_cons_of_neg _ (fun x => x.1 == q) e rest (by simp [hbq])]
        exact ih

theorem childrenOf_dictSet_other (m : RelationMap) (k : String) (v : RootEntry)
    (q : String) (hq : q ≠ k) :
    childrenOf (dictSet m k v) q = childrenOf m q := by
  unfold childrenOf
  rw [find_dictSet_other m k v q hq]

theorem keysOf_dictModify : ∀ (m : RelationMap) (k : String) (f : RootEntry → RootEntry),
    keysOf (dictModify m k f) = keysOf m := by
  intro m k f
  induction m with
  | nil => rfl
  | cons e rest ih =>
    cases hb : (e.1 == k) with
    | true => simp [dictModify, hb, keysOf_cons]
    | false => simp [dictModify, hb, keysOf_cons, ih]

theorem childrenOf_dictModify_other : ∀ (m : RelationMap) (k : String)
    (f : RootEntry → RootEntry) (q : String), q ≠ k →
    childrenOf (dictModify m k f) q = childrenOf m q := by
  intro m k f q hq
  induction m with
  | nil => rfl
  | cons e rest ih =>
    cases hb : (e.1 == k) with
    | true =>
      have he : e.1 = k := by simpa using hb
      simp only [dictModify, hb, if_true]
      rw [childrenOf_cons_neg _ _ _ (by simp [he]; intro hc; exact absurd hc.symm hq),
        childrenOf_cons_neg _ _ _ (by simp [he]; intro hc; exact absurd hc.symm hq)]
    | false =>
      simp only [dictModify, hb, Bool.false_eq_true, if_false]
      cases hbq : (e.1 == q) with
      | true =>
        rw [childrenOf_cons_pos _ _ _ hbq, childrenOf_cons_pos _ _ _ hbq]
      | false =>
        rw [childrenOf_cons_neg _ _ _ hbq, childrenOf_cons_neg _ _ _ hbq]
        exact ih

theorem childrenOf_dictModify_append : ∀ (m : RelationMap) (k : String)
    (c : String × Info), dictMem m k = true →
    childrenOf (dictModify m k (fun e => { e with child := e.child ++ [c] })) k =
      childrenOf m k ++ [c] := by
  intro m k c
  induction m with
  | nil => intro h; simp [dictMem] at h
  | cons e rest ih =>
    intro h
    rw [dictMem_cons] at h
    cases hb : (e.1 == k) with
    | true =>
      simp only [dictModify, hb, if_true]
      rw [childrenOf_cons_pos _ _ _ (by simpa using hb), childrenOf_cons_pos _ _ _ hb]
    | false =>
      have h2 : dictMem rest k = true := by simpa [hb] using h
      simp only [dictModify, hb, Bool.false_eq_true, if_false]
      rw [childrenOf_cons_neg _ _ _ hb, childrenOf_cons_neg _ _ _ hb]
      exact ih h2

theorem mem_keysOf_dictSet (m : RelationMap) (k0 : String) (v : RootEntry)
    (k : String) :
    k ∈ keysOf (dictSet m k0 v) ↔ k ∈ keysOf m ∨ k0 = k := by
  cases hm : dictMem m k0 with
  | true =>
    rw [keysOf_dictSet_mem m k0 v hm]
    constructor
    · exact Or.inl
    · rintro (h | h)
      · exact h
      · subst h
        exact (dictMem_iff m k0).mp hm
  | false =>
    rw [keysOf_dictSet_new m k0 v hm]
    simp [List.mem_append, eq_comm]

theorem dictSet_keys_nodup (m : RelationMap) (k : String) (v : RootEntry)
    (h : (keysOf m).Nodup) : (keysOf (dictSet m k v)).Nodup := by
  cases hm : dictMem m k with
  | true =>
    rw [keysOf_dictSet_mem m k v hm]
    exact h
  | false =>
    rw [keysOf_dictSet_new m k v hm]
    have hnp : k ∉ keysOf m := by
      intro hc
      have := (dictMem_iff m k).mpr hc
      rw [hm] at this
      exact absurd this (by simp)
    simp [List.nodup_append, h, hnp]

theorem mem_keysOf_of_childrenOf_ne (m : RelationMap) (k : String)
    (h : childrenOf m k ≠ []) : k ∈ keysOf m := by
  unfold childrenOf at h
  cases hf : m.find? (fun e => e.1 == k) with
  | none =>
    rw [hf] at h
    exact absurd rfl h
  | some e =>
    have hmem := List.mem_of_find?_eq_some hf
    have hpe := List.find?_some hf
    have hek : e.1 = k := by simpa using hpe
    rw [← hek]
    exact List.mem_map_of_mem _ hmem

/-! Characterization of the relation-tree builder. -/

/-- One ingest-loop step: when the parent key already exists the key list is
unchanged and one child is appended under it; otherwise the parent key is
appended as a new (synthetic) root whose child list starts with this record;
every other key's child list is untouched. -/
theorem processIngest_char {describe : String → DescribeResponse}
    {m m' : RelationMap} {b : StepFunction}
    (h : processIngest describe m b = .ok m') :
    (dictMem m b.parent_execution_arn = true → keysOf m' = keysOf m) ∧
    (dictMem m b.parent_execution_arn = false →
      keysOf m' = keysOf m ++ [b.parent_execution_arn]) ∧
    (∀ k, (childrenOf m' k).length =
      (childrenOf m k).length + (if b.parent_execution_arn == k then 1 else 0)) := by
  unfold processIngest at h
  dsimp only at h
  cases hb : (b.set_execution_metadata (describe b.parent_execution_arn)).set_extra_metadata with
  | error e =>
    rw [hb] at h
    simp at h
  | ok b2 =>
    rw [hb] at h
    simp only [ok_bind] at h
    have hpar : b2.parent_execution_arn = b.parent_execution_arn :=
      (set_extra_metadata_fields hb).2.2.2.2.2.2.1
    rw [hpar] at h
    cases hm : dictMem m b.parent_execution_arn with
    | true =>
      rw [hm] at h
      simp only [eq_self_iff_true, if_true, Except.ok.injEq] at h
      subst h
      refine ⟨fun _ => keysOf_dictModify m _ _, ?_, ?_⟩
      · intro hc
        simp at hc
      · intro k
        cases hk : (b.parent_execution_arn == k) with
        | true =>
          have hke : b.parent_execution_arn = k := by simpa using hk
          subst hke
          rw [childrenOf_dictModify_append m _ _ hm]
          simp
        | false =>
          have hne : k ≠ b.parent_execution_arn := by
            intro hc
            rw [hc] at hk
            simp at hk
          rw [childrenOf_dictModify_other m _ _ k hne]
          simp [hk]
    | false =>
      rw [hm] at h
      simp only [Bool.false_eq_true, if_false] at h
      cases ht : ((StepFunction.init
          (describe b.parent_execution_arn).toStepExecution).set_execution_metadata
          (describe b.parent_execution_arn)).set_extra_metadata with
      | error e =>
        rw [ht] at h
        simp at h
      | ok t2 =>
        rw [ht] at h
        simp only [ok_bind, Except.ok.injEq] at h
        subst h
        refine ⟨?_, fun _ => keysOf_dictSet_new m _ _ hm, ?_⟩
        · intro hc
          simp at hc
        · intro k
          cases hk : (b.parent_execution_arn == k) with
          | true =>
            have hke : b.parent_execution_arn = k := by simpa using hk
            subst hke
            rw [childrenOf_dictSet_self, childrenOf_not_mem m _ hm]
            simp
          | false =>
            have hne : k ≠ b.parent_execution_arn := by
              intro hc
              rw [hc] at hk
              simp at hk
            rw [childrenOf_dictSet_other m _ _ k hne]
            simp [hk]

/-- Folding the ingest loop: keys are only added, key distinctness is
preserved, and every key's child-list length grows by exactly the number of
ingest records whose parent reference is that key. -/
theorem ingest_fold_char (describe : String → DescribeResponse) :
    ∀ (il : List StepFunction) (m0 m : RelationMap),
      il.foldlM (processIngest describe) m0 = .ok m →
      ((keysOf m0).Nodup → (keysOf m).Nodup) ∧
      (∀ k, k ∈ keysOf m0 → k ∈ keysOf m) ∧
      (∀ k, (childrenOf m k).length =
        (childrenOf m0 k).length + il.countP (fun b => b.parent_execution_arn == k)) := by
  intro il
  induction il with
  | nil =>
    intro m0 m h
    rw [List.foldlM_nil] at h
    have hm : m0 = m := by simpa using h
    subst hm
    exact ⟨fun h2 => h2, fun _ hk => hk, fun k => by simp⟩
  | cons b il ih =>
    intro m0 m h
    rw [List.foldlM_cons] at h
    cases hp : processIngest describe m0 b with
    | error e =>
      rw [hp] at h
      simp at h
    | ok m1 =>
      rw [hp] at h
      simp only [ok_bind] at h
      obtain ⟨hnd, hmem, hch⟩ := ih m1 m h
      obtain ⟨hkt, hkf, hc1⟩ := processIngest_char hp
      refine ⟨?_, ?_, ?_⟩
      · intro h0
        apply hnd
        cases hm : dictMem m0 b.parent_execution_arn with
        | true =>
          rw [hkt hm]
          exact h0
        | false =>
          rw [hkf hm]
          have hnp : b.parent_execution_arn ∉ keysOf m0 := by
            intro hc
            have h3 := (dictMem_iff m0 _).mpr hc
            rw [hm] at h3
            exact absurd h3 (by simp)
          simp [List.nodup_append, h0, hnp]
      · intro k hk
        apply hmem
        cases hm : dictMem m0 b.parent_execution_arn with
        | true =>
          rw [hkt hm]
          exact hk
        | false =>
          rw [hkf hm]
          exact List.mem_append_left _ hk
      · intro k
        rw [hch k, hc1 k, List.countP_cons]
        cases hb : (b.parent_execution_arn == k) with
        | true => simp [hb]; omega
        | false => simp [hb]

/-- Folding the discover loop: keys are exactly the seed keys plus the
discovery execution references, key distinctness is preserved, and every
seeded-empty child list stays empty. -/
theorem discover_fold_char :
    ∀ (dl : List StepFunction) (acc : RelationMap),
      ((keysOf acc).Nodup →
        (keysOf (List.foldl
          (fun m a => dictSet m a.execution_arn { child := [], info := a.info }) acc dl)).Nodup) ∧
      (∀ k, k ∈ keysOf (List.foldl
          (fun m a => dictSet m a.execution_arn { child := [], info := a.info }) acc dl) ↔
        k ∈ keysOf acc ∨ (dl.any (fun a => a.execution_arn == k)) = true) ∧
      (∀ k, childrenOf acc k = [] →
        childrenOf (List.foldl
          (fun m a => dictSet m a.execution_arn { child := [], info := a.info }) acc dl) k = []) := by
  intro dl
  induction dl with
  | nil =>
    intro acc
    refine ⟨fun h => h, fun k => by simp, fun _ hk => hk⟩
  | cons a dl ih =>
    intro acc
    rw [List.foldl_cons]
    obtain ⟨ih1, ih2, ih3⟩ := ih (dictSet acc a.execution_arn { child := [], info := a.info })
    refine ⟨?_, ?_, ?_⟩
    · intro hnd
      exact ih1 (dictSet_keys_nodup _ _ _ hnd)
    · intro k
      rw [ih2 k, mem_keysOf_dictSet]
      simp only [List.any_cons, Bool.or_eq_true, beq_iff_eq]
      tauto
    · intro k hk
      apply ih3
      cases hak : (a.execution_arn == k) with
      | true =>
        have hke : a.execution_arn = k := by simpa using hak
        subst hke
        rw [childrenOf_dictSet_self]
      | false =>
        have hne : k ≠ a.execution_arn := by
          intro hc
          rw [hc] at hak
          simp at hak
        rw [childrenOf_dictSet_other _ _ _ _ hne]
        exact hk

/-! Claim C9. -/

/-- C9: whenever build_relation_tree produces a forest, every discovery
record's execution reference appears as exactly one root key, and a discovery
record with no matching ingestion records keeps an empty children list while
its root key is still present. -/
theorem C9_discover_roots (describe : String → DescribeResponse)
    (discover_list ingest_list : List StepFunction) (m : RelationMap)
    (hbuild : build_relation_tree describe discover_list ingest_list = .ok m) :
    ∀ a ∈ discover_list, countKey m a.execution_arn = 1 ∧
      (ingest_list.countP (fun b => b.parent_execution_arn == a.execution_arn) = 0 →
        childrenOf m a.execution_arn = []) := by
  unfold build_relation_tree at hbuild
  dsimp only at hbuild
  obtain ⟨hnd, hmem, hch⟩ := ingest_fold_char describe ingest_list _ m hbuild
  obtain ⟨d1, d2, d3⟩ := discover_fold_char discover_list []
  intro a ha
  have hany : (discover_list.any (fun x => x.execution_arn == a.execution_arn)) = true :=
    List.any_eq_true.mpr ⟨a, ha, by simp⟩
  have hamem := (d2 a.execution_arn).mpr (Or.inr hany)
  have hfinalmem := hmem a.execution_arn hamem
  have hndfinal : (keysOf m).Nodup := hnd (d1 (by simp [keysOf]))
  constructor
  · exact List.count_eq_one_of_mem hndfinal hfinalmem
  · intro hcnt
    have hz := hch a.execution_arn
    rw [d3 a.execution_arn rfl, hcnt] at hz
    simp at hz
    exact hz

/-- Witness for C9 at one discovery record and no ingestion records: its
reference is the unique root key and its children list is empty. -/
theorem C9_witness :
    countKey c9map "arn-d1" = 1 ∧ childrenOf c9map "arn-d1" = [] := by
  have h := C9_discover_roots c2describe [c9disc] [] c9map rfl c9disc (by simp)
  exact ⟨h.1, h.2 rfl⟩

/-! Claim C2. -/

/-- C2: whenever build_relation_tree produces a forest and at least two
ingestion records carry the same resolved parent reference p that is not among
the discovery records, the forest holds exactly one root keyed p (one
synthetic root, never several), whose children list has exactly one entry per
such ingestion record; moreover, for every key, the children list under that
key has exactly one entry per ingestion record resolving to that parent, so
every ingestion record appears under exactly one parent key and is never
duplicated. -/
theorem C2_shared_unlisted_parent (describe : String → DescribeResponse)
    (discover_list ingest_list : List StepFunction) (p : String) (m : RelationMap)
    (hbuild : build_relation_tree describe discover_list ingest_list = .ok m)
    (_hunlisted : ∀ a ∈ discover_list, a.execution_arn ≠ p)
    (hN : 2 ≤ ingest_list.countP (fun b => b.parent_execution_arn == p)) :
    countKey m p = 1 ∧
    (childrenOf m p).length =
      ingest_list.countP (fun b => b.parent_execution_arn == p) ∧
    (∀ k, (childrenOf m k).length =
      ingest_list.countP (fun b => b.parent_execution_arn == k)) := by
  unfold build_relation_tree at hbuild
  dsimp only at hbuild
  obtain ⟨hnd, hmem, hch⟩ := ingest_fold_char describe ingest_list _ m hbuild
  obtain ⟨d1, d2, d3⟩ := discover_fold_char discover_list []
  have hlen : ∀ k, (childrenOf m k).length =
      ingest_list.countP (fun b => b.parent_execution_arn == k) := by
    intro k
    have hz := hch k
    rw [d3 k rfl] at hz
    simpa using hz
  have hne : childrenOf m p ≠ [] := by
    intro hc
    have h0 := hlen p
    rw [hc] at h0
    rw [← h0] at hN
    exact absurd hN (by decide)
  have hpmem := mem_keysOf_of_childrenOf_ne m p hne
  have hndfinal : (keysOf m).Nodup := hnd (d1 (by simp [keysOf]))
  exact ⟨List.count_eq_one_of_mem hndfinal hpmem, hlen p, hlen⟩

/-- Witness for C2: two concrete ingestion records sharing the unlisted parent
arn-p yield one root under arn-p with a two-entry children list. -/
theorem C2_witness :
    countKey c2map "arn-p" = 1 ∧
      (childrenOf c2map "arn-p").length =
        c2il.countP (fun b => b.parent_execution_arn == "arn-p") := by
  have h := C2_shared_unlisted_parent c2describe [] c2il "arn-p" c2map rfl
    (by simp) (by decide)
  exact ⟨h.1, h.2.1⟩

end DmasBypassStatus
